import Mathlib

/-!
Shallow embedding of the Sal_Repo payroll dashboard core
(`src/dashboard/app.js`, second document, and `src/unnamed/part_000`).

JavaScript numbers are modelled as `Option ℚ`, with `none` standing for
`NaN`; all arithmetic the dashboard performs on its CSV fields is exact
decimal arithmetic, so `ℚ` is faithful for every parseable value.
Strings are Lean `String`s (Unicode code points, matching the code-point
view the relevant JS string operations take on these inputs).
-/

namespace SalRepo

/-- A JavaScript number: `none` is `NaN`, `some q` a (finite) numeric value.
The dashboard never produces `Infinity` from its CSV fields. -/
abbrev JSNum := Option ℚ

/-- JS `+` on numbers: `NaN` propagates. -/
def jsAdd : JSNum → JSNum → JSNum
  | some a, some b => some (a + b)
  | _, _ => none

/-- JS `-` on numbers: `NaN` propagates. -/
def jsSub : JSNum → JSNum → JSNum
  | some a, some b => some (a - b)
  | _, _ => none

/-- Numeric value of a list of decimal digit characters (most significant first). -/
def digitsVal (l : List Char) : ℕ :=
  l.foldl (fun a c => 10 * a + (c.toNat - '0'.toNat)) 0

/-- Split a character list at the first `'.'`; returns the part before it and,
when a dot is present, the part after it. -/
def splitAtDot : List Char → (List Char × Option (List Char))
  | [] => ([], none)
  | c :: t =>
    if c = '.' then ([], some t)
    else
      let p := splitAtDot t
      (c :: p.1, p.2)

/-- Parse an unsigned decimal literal (`digits`, `digits.digits`, `digits.`,
`.digits`), as accepted by JS `Number(...)`; anything else is `NaN` (`none`).
(Exponent and hex forms never occur in this data and are not modelled.) -/
def parseDecimal (l : List Char) : Option ℚ :=
  match splitAtDot l with
  | (ip, none) =>
    if ip ≠ [] && ip.all Char.isDigit then some (digitsVal ip : ℚ) else none
  | (ip, some fp) =>
    if (ip ≠ [] || fp ≠ []) && ip.all Char.isDigit && fp.all Char.isDigit then
      some ((digitsVal ip : ℚ) + (digitsVal fp : ℚ) / 10 ^ fp.length)
    else none

/-- Drop leading and trailing whitespace characters. -/
def trimChars (l : List Char) : List Char :=
  ((l.dropWhile Char.isWhitespace).reverse.dropWhile Char.isWhitespace).reverse

/-- Model of JS `s.trim()`. -/
def jsTrim (s : String) : String :=
  String.mk (trimChars s.data)

/-- Model of JS `Number(s)` for a string argument: whitespace-trimmed; the
empty (or all-whitespace) string is `0`; otherwise an optionally signed
decimal literal; any other string is `NaN`. -/
def jsNumberOfString (s : String) : JSNum :=
  match trimChars s.data with
  | [] => some 0
  | '-' :: r => (parseDecimal r).map (fun q => -q)
  | '+' :: r => parseDecimal r
  | l => parseDecimal l

/-- JS truthiness of a possibly-absent string field: `undefined` and `""` are
falsy, every other string is truthy. -/
def jsTruthy (o : Option String) : Bool :=
  match o with
  | some s => s ≠ ""
  | none => false

/-- Model of `Number(row.field || 0)`: a falsy field (absent column or empty
cell) becomes `Number(0) = 0`; a truthy string is passed to `Number`. -/
def numField (o : Option String) : JSNum :=
  if jsTruthy o then jsNumberOfString (o.getD "") else some 0

/-- One raw CSV row as produced by header-mode parsing: each column is either
present with a string value or absent (`none`, i.e. `undefined` in JS). -/
structure RawRow where
  date : Option String := none
  venue : Option String := none
  event_type : Option String := none
  performed_by : Option String := none
  scheduled_end_time : Option String := none
  actual_end_time : Option String := none
  base_pay : Option String := none
  ot_minutes : Option String := none
  ot_pay : Option String := none
  total_pay : Option String := none
  worker_payment : Option String := none
  net_income : Option String := none
deriving DecidableEq

/-- An ingested shift record (the object built by `loadCsv`'s `.map`).
String fields keep their raw value (absent columns read back as `""`, which
is how every later `row.x || ""` / template use observes them). -/
structure Record where
  date : String
  venue : String := ""
  event_type : String := ""
  performed_by : String := ""
  scheduled_end_time : String := ""
  actual_end_time : String := ""
  base_pay : JSNum := some 0
  ot_minutes : JSNum := some 0
  ot_pay : JSNum := some 0
  total_pay : JSNum := some 0
  worker_payment : JSNum := some 0
  net_income : JSNum := some 0
deriving DecidableEq

/-- The per-row mapping inside `loadCsv` (src/dashboard/app.js:219–235):
numeric columns go through `Number(row.x || 0)`; `net_income` is taken
verbatim when the raw cell is truthy and is otherwise computed as
`totalPay - workerPayment`. -/
def toRecord (r : RawRow) : Record :=
  let basePay := numField r.base_pay
  let otMinutes := numField r.ot_minutes
  let otPay := numField r.ot_pay
  let totalPay := numField r.total_pay
  let workerPayment := numField r.worker_payment
  let netIncome :=
    if jsTruthy r.net_income then jsNumberOfString (r.net_income.getD "")
    else jsSub totalPay workerPayment
  { date := r.date.getD ""
    venue := r.venue.getD ""
    event_type := r.event_type.getD ""
    performed_by := r.performed_by.getD ""
    scheduled_end_time := r.scheduled_end_time.getD ""
    actual_end_time := r.actual_end_time.getD ""
    base_pay := basePay
    ot_minutes := otMinutes
    ot_pay := otPay
    total_pay := totalPay
    worker_payment := workerPayment
    net_income := netIncome }

/-- `loadCsv` after transport succeeded (src/dashboard/app.js:217–235):
keep the rows whose `date` is truthy, in input order, and map each through
the numeric-coercion record builder. -/
def loadCsv (rows : List RawRow) : List Record :=
  (rows.filter (fun r => jsTruthy r.date)).map toRecord

/-- JS `x || 0` for a number `x`: `0`, `-0` and `NaN` are falsy and give `0`;
any other number passes through. As a rational that is exactly `Option.getD 0`. -/
def orZero (x : JSNum) : ℚ := x.getD 0

/-- `String.includes` on code points: does `pat` occur as a contiguous
substring of `s`? (`"".includes("")` is `true`, as in JS.) -/
def containsSub (p : List Char) : List Char → Bool
  | [] => p.isEmpty
  | l@(_ :: t) => p.isPrefixOf l || containsSub p t

/-- Model of JS `s.includes(pat)`. -/
def jsIncludes (s pat : String) : Bool :=
  containsSub pat.data s.data

/-- The values `updateSummary` (src/dashboard/app.js:238–266) writes to the
page, before currency formatting: sums, counts, the `self/outsourced` text and
the freshness line.  `noData` marks the early-return (empty input) branch. -/
structure Summary where
  totalPay : ℚ
  netIncome : ℚ
  workerPay : ℚ
  otMinutes : ℚ
  shiftCount : ℕ
  selfCount : ℕ
  outsourced : ℕ
  selfVsOutsourced : String
  lastUpdated : String
  noData : Bool
deriving DecidableEq

/-- Model of `updateSummary` (src/dashboard/app.js:238–266).  The empty-input
branch writes literal zeroes, `"0/0"` and the no-data sentinel text; otherwise
every sum reads its field through `row.x || 0` and the freshness marker is the
lexicographic maximum date (the `reduce` with `row.date > max`). -/
def updateSummary (rows : List Record) : Summary :=
  match rows with
  | [] =>
    { totalPay := 0, netIncome := 0, workerPay := 0, otMinutes := 0
      shiftCount := 0, selfCount := 0, outsourced := 0
      selfVsOutsourced := "0/0"
      lastUpdated := "Chưa có dữ liệu cho chế độ này"
      noData := true }
  | r0 :: _ =>
    let totalPay := (rows.map (fun r => orZero r.total_pay)).sum
    let totalOt := (rows.map (fun r => orZero r.ot_minutes)).sum
    let totalWorker := (rows.map (fun r => orZero r.worker_payment)).sum
    let totalNet := (rows.map (fun r => orZero r.net_income)).sum
    let selfCount := (rows.filter (fun r => jsIncludes r.performed_by "Tự")).length
    let outsourced := rows.length - selfCount
    let lastDate := rows.foldl (fun mx r => if mx < r.date then r.date else mx) r0.date
    { totalPay := totalPay, netIncome := totalNet, workerPay := totalWorker
      otMinutes := totalOt, shiftCount := rows.length
      selfCount := selfCount, outsourced := outsourced
      selfVsOutsourced := s!"{selfCount}/{outsourced}"
      lastUpdated := s!"Cập nhật đến {lastDate}"
      noData := false }

/-- First-occurrence deduplication with an accumulator of already-seen values:
the order-preserving behaviour of `Array.from(new Set(xs))`. -/
def dedupFirstAux (seen : List String) : List String → List String
  | [] => []
  | x :: t =>
    if x ∈ seen then dedupFirstAux seen t
    else x :: dedupFirstAux (x :: seen) t

/-- `Array.from(new Set(xs))`: distinct values, first occurrences, input order. -/
def dedupFirst (l : List String) : List String :=
  dedupFirstAux [] l

/-- Lexicographic `≤` on code-point sequences: the order JS `<`/`>` uses on
these strings (code units and code points agree on this data). -/
def charListLe : List Char → List Char → Bool
  | [], _ => true
  | _ :: _, [] => false
  | a :: as, b :: bs =>
    if a.toNat < b.toNat then true
    else if b.toNat < a.toNat then false
    else charListLe as bs

/-- JS string comparison `a <= b`. -/
def jsStrLe (a b : String) : Bool :=
  charListLe a.data b.data

/-- The descending comparison the month list is sorted by
(`(a, b) => (a > b ? -1 : 1)` on distinct strings). -/
def descRel (a b : String) : Prop :=
  jsStrLe b a = true

/-- The ascending comparison of the default `.sort()`. -/
def ascRel (a b : String) : Prop :=
  jsStrLe a b = true

instance : DecidableRel descRel := fun _ _ => instDecidableEqBool _ _

instance : DecidableRel ascRel := fun _ _ => instDecidableEqBool _ _

/-- `.sort((a, b) => (a > b ? -1 : 1))` on a duplicate-free string array:
descending lexicographic order. -/
def sortDesc (l : List String) : List String :=
  List.insertionSort descRel l

/-- JS default `.sort()` on a duplicate-free string array: ascending
lexicographic order. -/
def sortAsc (l : List String) : List String :=
  List.insertionSort ascRel l

/-- The distinct year-months of a record list, most recent first
(`rows.map(row => row.date ? row.date.slice(0,7) : null).filter(v => v)`,
deduplicated through a `Set`, sorted descending) — shared by
`updateMonthOptions` and `getDailyChartRows`. -/
def monthsOf (rows : List Record) : List String :=
  sortDesc (dedupFirst (rows.filterMap
    (fun r => if r.date ≠ "" then some (r.date.take 7) else none)))

/-- `getDailyChartRows` (src/dashboard/app.js:521–540), with the relevant
filter state (`state.filters.month`) passed explicitly: returns the month the
day-level view buckets over and the rows of that month.  When the selected
month is `"all"` or is not among the rows' months, the first (most recent)
month is auto-selected. -/
def getDailyChartRows (filterMonth : String) (rows : List Record) :
    Option String × List Record :=
  match monthsOf rows with
  | [] => (none, [])
  | m0 :: rest =>
    let selected :=
      if filterMonth = "all" ∨ filterMonth ∉ m0 :: rest then m0 else filterMonth
    (some selected,
      rows.filter (fun r => r.date != "" && r.date.take 7 == selected))

/-- The chart metrics offered by the `chart-mode` select
(`total_pay`, `net_income`, `ot_pay`). -/
inductive Metric
  | total_pay
  | net_income
  | ot_pay
deriving DecidableEq

/-- The record field a metric key reads (`row[metric]`). -/
def metricField (r : Record) : Metric → JSNum
  | .total_pay => r.total_pay
  | .net_income => r.net_income
  | .ot_pay => r.ot_pay

/-- `row[metric] || 0` as the exact rational the bucket sums consume. -/
def metricOrZero (m : Metric) (r : Record) : ℚ :=
  orZero (metricField r m)

/-- `monthly[k] = (monthly[k] || 0) + v` on a JS object viewed as an
insertion-ordered association list: add to the existing entry in place, or
append a new key at the end. -/
def upsertAdd : List (String × ℚ) → String → ℚ → List (String × ℚ)
  | [], k, v => [(k, v)]
  | (k', v') :: t, k, v =>
    if k' = k then (k', v' + v) :: t else (k', v') :: upsertAdd t k v

/-- The `monthly` accumulation object of `renderMonthlyChart`
(src/dashboard/app.js:408–413): per 7-character date prefix, the exact sum of
`row[metric] || 0`. -/
def monthlyTable (rows : List Record) (m : Metric) : List (String × ℚ) :=
  rows.foldl (fun t r => upsertAdd t (r.date.take 7) (metricOrZero m r)) []

/-- `monthly[label]` (a key known to be present; absent would be `undefined`). -/
def lookupQ (t : List (String × ℚ)) (k : String) : ℚ :=
  (t.lookup k).getD 0

/-- `Object.keys(monthly).sort()`: the bucket labels, ascending. -/
def monthlyLabels (rows : List Record) (m : Metric) : List String :=
  sortAsc ((monthlyTable rows m).map Prod.fst)

/-- The per-bucket values of the monthly chart before rounding, in label
order: `labels.map(label => monthly[label])`. -/
def monthlySeries (rows : List Record) (m : Metric) : List (String × ℚ) :=
  (monthlyLabels rows m).map (fun l => (l, lookupQ (monthlyTable rows m) l))

/-- `Math.round`: round half toward positive infinity. -/
def jsRound (q : ℚ) : ℤ :=
  ⌊q + 1/2⌋

/-- `labels.map(label => Math.round(monthly[label]))` — the only place
rounding happens in the monthly chart. -/
def monthlyData (rows : List Record) (m : Metric) : List ℤ :=
  (monthlyLabels rows m).map (fun l => jsRound (lookupQ (monthlyTable rows m) l))

/-- The distinct non-blank event types of a record list, sorted ascending
(`rows.map(row => row.event_type).filter(v => v && v.trim().length > 0)`
deduplicated through a `Set`), as built by `updateEventFilterOptions`. -/
def eventTypesOf (rows : List Record) : List String :=
  sortAsc (dedupFirst ((rows.map (fun r => r.event_type)).filter
    (fun v => v ≠ "" && jsTrim v ≠ "")))

/-- The filter-state write-back of `updateMonthOptions`
(src/dashboard/app.js:354–356): a selected month absent from the rebuilt
option list is silently reset to `"all"`. -/
def updateMonthSelection (current : String) (rows : List Record) : String :=
  if current ≠ "all" ∧ current ∉ monthsOf rows then "all" else current

/-- The filter-state write-back of `updateEventFilterOptions`
(src/dashboard/app.js:334–336): a selected event type absent from the rebuilt
option list is silently reset to `"all"`. -/
def updateEventSelection (current : String) (rows : List Record) : String :=
  if current ≠ "all" ∧ current ∉ eventTypesOf rows then "all" else current

/-- The fixed rate of one 15-minute overtime block, in currency minor units. -/
def blockRate : ℕ := 50000

/-- Modelled from the spec: the overtime-pay rule of the Payroll Deriver
(spec §4.2).  The computation lives in `bot/payroll.py`, which is not part of
the provided sources; per the spec, overtime is billed in 15-minute blocks and
each block, whole or partial, costs `blockRate`, i.e. `m` minutes cost
`((m + 14) / 15) * blockRate` with natural division. -/
def otPay (m : ℕ) : ℕ :=
  ((m + 14) / 15) * blockRate

/-! ## Theorems -/

lemma ceil_div_fifteen (m : ℕ) : ⌈(m : ℚ) / 15⌉ = (((m + 14) / 15 : ℕ) : ℤ) := by
  rw [Int.ceil_eq_iff]
  have hdm := Nat.div_add_mod (m + 14) 15
  have hlt : (m + 14) % 15 < 15 := Nat.mod_lt _ (by norm_num)
  have h1 : 15 * ((m + 14) / 15) ≤ m + 14 := by omega
  have h2 : m ≤ 15 * ((m + 14) / 15) := by omega
  have hq1 : (15 * ((m + 14) / 15 : ℕ) : ℚ) ≤ (m : ℚ) + 14 := by exact_mod_cast h1
  have hq2 : (m : ℚ) ≤ 15 * ((m + 14) / 15 : ℕ) := by exact_mod_cast h2
  constructor
  · rw [lt_div_iff₀ (by norm_num : (0 : ℚ) < 15), Int.cast_natCast]
    linarith
  · rw [div_le_iff₀ (by norm_num : (0 : ℚ) < 15), Int.cast_natCast]
    linarith

/-- C1: for every non-negative integer `m` of overtime minutes, the derived
overtime pay is `ceil(m / 15) * blockRate` with `blockRate = 50000`; in
particular `otPay 0 = 0`, `otPay 1 = blockRate`, `otPay 15 = blockRate` and
`otPay 16 = 2 * blockRate`: partial blocks always round up, never down. -/
theorem c1_otPay_blocks :
    (∀ m : ℕ, (otPay m : ℤ) = ⌈(m : ℚ) / 15⌉ * blockRate) ∧
    otPay 0 = 0 ∧ otPay 1 = blockRate ∧ otPay 15 = blockRate ∧
    otPay 16 = 2 * blockRate := by
  refine ⟨fun m => ?_, rfl, rfl, rfl, rfl⟩
  rw [ceil_div_fifteen]
  show ((((m + 14) / 15) * blockRate : ℕ) : ℤ) =
    (((m + 14) / 15 : ℕ) : ℤ) * (blockRate : ℤ)
  exact Nat.cast_mul _ _

/-- C8: the summary reduction applied to an empty filtered record set yields
all-zero summary fields, the `"0/0"` self-vs-outsourced text and the no-data
sentinel marker — it is a total function that returns this fixed value rather
than throwing or producing `NaN`. -/
theorem c8_empty_summary :
    updateSummary [] =
      { totalPay := 0, netIncome := 0, workerPay := 0, otMinutes := 0
        shiftCount := 0, selfCount := 0, outsourced := 0
        selfVsOutsourced := "0/0"
        lastUpdated := "Chưa có dữ liệu cho chế độ này"
        noData := true } := rfl

lemma jsTruthy_date_eq (o : Option String) :
    jsTruthy o = decide (o.getD "" ≠ "") := by
  cases o <;> rfl

lemma toRecord_date (r : RawRow) : (toRecord r).date = r.date.getD "" := rfl

/-- C5: ingestion outputs exactly the rows whose `date` field is present and
non-empty (a silent filter, never an error), mapped through the record
builder in the same relative order: the sequence of output dates is the
sequence of non-empty input dates. -/
theorem c5_loadCsv_filter_order (rows : List RawRow) :
    loadCsv rows = (rows.filter (fun r => jsTruthy r.date)).map toRecord ∧
    (loadCsv rows).map (fun rec => rec.date) =
      (rows.map (fun r => r.date.getD "")).filter (fun d => d ≠ "") := by
  refine ⟨rfl, ?_⟩
  induction rows with
  | nil => rfl
  | cons r t ih =>
    have hd := jsTruthy_date_eq r.date
    by_cases hcase : (r.date.getD "") ≠ ""
    · simp [loadCsv, List.filter_cons, hd, hcase, toRecord_date] at ih ⊢
      exact ih
    · simp [loadCsv, List.filter_cons, hd, hcase] at ih ⊢
      exact ih

/-- C4: for every record produced by ingestion there is a raw row it came
from, and its `net_income` is the raw cell's numeric value when that cell is
present and non-empty (truthy), and `total_pay - worker_payment` otherwise. -/
theorem c4_netIncome_verbatim_or_derived (rows : List RawRow) (rec : Record)
    (hmem : rec ∈ loadCsv rows) :
    ∃ raw ∈ rows, jsTruthy raw.date = true ∧ rec = toRecord raw ∧
      rec.net_income =
        (if jsTruthy raw.net_income then jsNumberOfString (raw.net_income.getD "")
         else jsSub rec.total_pay rec.worker_payment) := by
  obtain ⟨raw, hraw, rfl⟩ := List.mem_map.mp hmem
  obtain ⟨hmem', hdate⟩ := List.mem_filter.mp hraw
  refine ⟨raw, hmem', hdate, rfl, ?_⟩
  by_cases h : jsTruthy raw.net_income
  · simp [toRecord, h]
  · simp [toRecord, h]

/-- Witness for C4 at a concrete row whose `net_income` cell is present. -/
theorem c4_witness :
    ∃ raw ∈ [({ date := some "2024-01-05", total_pay := some "100",
                net_income := some "70" } : RawRow)],
      jsTruthy raw.date = true ∧
      toRecord { date := some "2024-01-05", total_pay := some "100",
                 net_income := some "70" } = toRecord raw ∧
      (toRecord { date := some "2024-01-05", total_pay := some "100",
                  net_income := some "70" } : Record).net_income =
        (if jsTruthy raw.net_income then jsNumberOfString (raw.net_income.getD "")
         else jsSub (toRecord { date := some "2024-01-05",
                                total_pay := some "100",
                                net_income := some "70" } : Record).total_pay
                (toRecord { date := some "2024-01-05", total_pay := some "100",
                            net_income := some "70" } : Record).worker_payment) :=
  c4_netIncome_verbatim_or_derived _ _ (by decide)

/-- The raw row refuting C2: its `base_pay` cell is a non-empty string that
does not parse as a number. -/
def c2Row : RawRow :=
  { date := some "2024-01-01", base_pay := some "abc" }

/-- C2 counterexample: a non-empty unparseable numeric cell is *not* coerced
to `0` — `Number("abc")` is `NaN`, and ingestion keeps it, so the claim
"unparseable values coerce to 0, never a non-numeric value" is false. -/
theorem c2_counterexample :
    (loadCsv [c2Row]).map (fun rec => rec.base_pay) = [(none : JSNum)] ∧
    (none : JSNum) ≠ some 0 := by
  decide

lemma numField_default (o : Option String) (h : o = none ∨ o = some "") :
    numField o = some 0 := by
  rcases h with h | h <;> subst h <;> rfl

/-- C2 amended: a numeric cell that is absent or empty is coerced to `0`
(and ingestion never fails); only a non-empty cell that does not parse as a
number yields `NaN`. -/
theorem c2_amended (r : RawRow) :
    ((r.base_pay = none ∨ r.base_pay = some "") → (toRecord r).base_pay = some 0) ∧
    ((r.ot_minutes = none ∨ r.ot_minutes = some "") → (toRecord r).ot_minutes = some 0) ∧
    ((r.ot_pay = none ∨ r.ot_pay = some "") → (toRecord r).ot_pay = some 0) ∧
    ((r.total_pay = none ∨ r.total_pay = some "") → (toRecord r).total_pay = some 0) ∧
    ((r.worker_payment = none ∨ r.worker_payment = some "") →
      (toRecord r).worker_payment = some 0) :=
  ⟨fun h => numField_default _ h, fun h => numField_default _ h,
   fun h => numField_default _ h, fun h => numField_default _ h,
   fun h => numField_default _ h⟩

/-- The raw row for the C2-amended witness: absent and empty numeric cells. -/
def c2wRow : RawRow :=
  { date := some "2024-01-01", base_pay := none, ot_minutes := some "",
    ot_pay := none, total_pay := some "", worker_payment := none }

/-- Witness for the amended C2 at a concrete row. -/
theorem c2_amended_witness :
    (toRecord c2wRow).base_pay = some 0 ∧ (toRecord c2wRow).ot_minutes = some 0 ∧
    (toRecord c2wRow).ot_pay = some 0 ∧ (toRecord c2wRow).total_pay = some 0 ∧
    (toRecord c2wRow).worker_payment = some 0 :=
  ⟨(c2_amended c2wRow).1 (Or.inl rfl),
   (c2_amended c2wRow).2.1 (Or.inr rfl),
   (c2_amended c2wRow).2.2.1 (Or.inl rfl),
   (c2_amended c2wRow).2.2.2.1 (Or.inr rfl),
   (c2_amended c2wRow).2.2.2.2 (Or.inl rfl)⟩

/-- The raw row refuting C3: the CSV supplies `total_pay` and `net_income`
values inconsistent with the other columns. -/
def c3Row : RawRow :=
  { date := some "2024-01-01", base_pay := some "100", ot_pay := some "50",
    total_pay := some "10", worker_payment := some "0",
    net_income := some "999" }

/-- C3 counterexample: ingestion reads `total_pay` and a present `net_income`
verbatim, so a row can violate both `total_pay = base_pay + ot_pay`
(here `10 ≠ 100 + 50`) and `net_income + worker_payment = total_pay`
(here `999 + 0 ≠ 10`). -/
theorem c3_counterexample :
    loadCsv [c3Row] = [toRecord c3Row] ∧
    (toRecord c3Row).total_pay = some 10 ∧
    jsAdd (toRecord c3Row).base_pay (toRecord c3Row).ot_pay = some 150 ∧
    jsAdd (toRecord c3Row).net_income (toRecord c3Row).worker_payment = some 999 ∧
    (some 10 : JSNum) ≠ some 150 ∧ (some 999 : JSNum) ≠ some 10 := by
  refine ⟨by decide, by decide, ?_, ?_, by decide, by decide⟩
  · have hb : (toRecord c3Row).base_pay = some 100 := by decide
    have ho : (toRecord c3Row).ot_pay = some 50 := by decide
    rw [hb, ho]
    show (some (100 + 50 : ℚ) : JSNum) = some 150
    norm_num
  · have hn : (toRecord c3Row).net_income = some 999 := by decide
    have hw : (toRecord c3Row).worker_payment = some 0 := by decide
    rw [hn, hw]
    show (some (999 + 0 : ℚ) : JSNum) = some 999
    norm_num

/-- C3 amended: ingestion enforces neither invariant in general — `total_pay`
is taken verbatim from the raw row; but whenever the raw `net_income` cell is
falsy (absent or empty) and `total_pay` and `worker_payment` are numeric, the
derived `net_income` satisfies `net_income + worker_payment = total_pay`
exactly. -/
theorem c3_amended (r : RawRow) (hni : jsTruthy r.net_income = false)
    (t w : ℚ) (ht : (toRecord r).total_pay = some t)
    (hw : (toRecord r).worker_payment = some w) :
    jsAdd (toRecord r).net_income (toRecord r).worker_payment =
      (toRecord r).total_pay := by
  have h1 : (toRecord r).net_income =
      jsSub (toRecord r).total_pay (toRecord r).worker_payment := by
    simp [toRecord, hni]
  rw [h1, ht, hw]
  show (some (t - w + w) : JSNum) = some t
  rw [sub_add_cancel]

/-- The raw row for the C3-amended witness: `net_income` absent. -/
def c3wRow : RawRow :=
  { date := some "2024-01-01", total_pay := some "100",
    worker_payment := some "30" }

/-- Witness for the amended C3 at a concrete row (net 70 + worker 30 = 100). -/
theorem c3_amended_witness :
    jsAdd (toRecord c3wRow).net_income (toRecord c3wRow).worker_payment =
      (toRecord c3wRow).total_pay :=
  c3_amended c3wRow (by decide) 100 30 (by decide) (by decide)

lemma charListLe_total : ∀ as bs, charListLe as bs = true ∨ charListLe bs as = true := by
  intro as
  induction as with
  | nil => intro bs; left; rfl
  | cons a as ih =>
    intro bs
    cases bs with
    | nil => right; rfl
    | cons b bs =>
      by_cases h1 : a.toNat < b.toNat
      · left; simp [charListLe, h1]
      · by_cases h2 : b.toNat < a.toNat
        · right; simp [charListLe, h2]
        · rcases ih bs with h | h
          · left; simp [charListLe, h1, h2, h]
          · right; simp [charListLe, h1, h2, h]

lemma charListLe_trans : ∀ as bs cs, charListLe as bs = true →
    charListLe bs cs = true → charListLe as cs = true := by
  intro as
  induction as with
  | nil => intros; rfl
  | cons a as ih =>
    intro bs cs h1 h2
    cases bs with
    | nil => simp [charListLe] at h1
    | cons b bs =>
      cases cs with
      | nil => simp [charListLe] at h2
      | cons c cs =>
        simp only [charListLe] at h1 h2 ⊢
        split_ifs at h1 h2 ⊢ <;>
          first
            | rfl
            | omega
            | exact ih bs cs h1 h2

lemma descRel_isTotal : IsTotal String descRel :=
  ⟨fun a b => charListLe_total b.data a.data⟩

lemma descRel_isTrans : IsTrans String descRel :=
  ⟨fun _ _ _ h1 h2 => charListLe_trans _ _ _ h2 h1⟩

lemma sortDesc_sorted (l : List String) : List.Sorted descRel (sortDesc l) :=
  @List.sorted_insertionSort _ descRel _ descRel_isTotal descRel_isTrans l

lemma mem_sortDesc {x : String} {l : List String} : x ∈ sortDesc l ↔ x ∈ l :=
  (List.perm_insertionSort descRel l).mem_iff

lemma mem_sortAsc {x : String} {l : List String} : x ∈ sortAsc l ↔ x ∈ l :=
  (List.perm_insertionSort ascRel l).mem_iff

lemma mem_dedupFirstAux {x : String} : ∀ (l seen : List String),
    x ∈ dedupFirstAux seen l ↔ x ∈ l ∧ x ∉ seen := by
  intro l
  induction l with
  | nil => intro seen; simp [dedupFirstAux]
  | cons y t ih =>
    intro seen
    by_cases h : y ∈ seen
    · rw [dedupFirstAux, if_pos h, ih]
      simp only [List.mem_cons]
      constructor
      · rintro ⟨hx, hs⟩; exact ⟨Or.inr hx, hs⟩
      · rintro ⟨hx | hx, hs⟩
        · exact absurd (hx ▸ h) hs
        · exact ⟨hx, hs⟩
    · rw [dedupFirstAux, if_neg h]
      simp only [List.mem_cons, ih, List.mem_cons]
      constructor
      · rintro (rfl | ⟨hx, hs⟩)
        · exact ⟨Or.inl rfl, h⟩
        · exact ⟨Or.inr hx, fun hxs => hs (Or.inr hxs)⟩
      · rintro ⟨rfl | hx, hs⟩
        · exact Or.inl rfl
        · by_cases hxy : x = y
          · exact Or.inl hxy
          · exact Or.inr ⟨hx, fun hxs => hs (hxs.resolve_left hxy)⟩

lemma mem_dedupFirst {x : String} {l : List String} : x ∈ dedupFirst l ↔ x ∈ l := by
  rw [dedupFirst, mem_dedupFirstAux]
  simp

lemma mem_monthsOf {m : String} {rows : List Record} :
    m ∈ monthsOf rows ↔ ∃ r ∈ rows, r.date ≠ "" ∧ r.date.take 7 = m := by
  unfold monthsOf
  rw [mem_sortDesc, mem_dedupFirst, List.mem_filterMap]
  constructor
  · rintro ⟨r, hr, h⟩
    by_cases hd : r.date ≠ ""
    · rw [if_pos hd] at h
      exact ⟨r, hr, hd, Option.some_injective _ h⟩
    · rw [if_neg hd] at h
      cases h
  · rintro ⟨r, hr, hd, ht⟩
    exact ⟨r, hr, by rw [if_pos hd, ht]⟩

/-- C10: after the month and event-type option lists are rebuilt from the
current rows, the written-back selections never name a value absent from the
data: a stale month or event type is silently reset to `"all"`, and the
result is always either `"all"` or a member of the rebuilt option list. -/
theorem c10_filter_reset (cur : String) (rows : List Record) :
    (updateMonthSelection cur rows = "all" ∨
      updateMonthSelection cur rows ∈ monthsOf rows) ∧
    (updateEventSelection cur rows = "all" ∨
      updateEventSelection cur rows ∈ eventTypesOf rows) ∧
    (cur ≠ "all" → cur ∉ monthsOf rows → updateMonthSelection cur rows = "all") ∧
    (cur ≠ "all" → cur ∉ eventTypesOf rows → updateEventSelection cur rows = "all") := by
  refine ⟨?_, ?_, fun h1 h2 => ?_, fun h1 h2 => ?_⟩
  · unfold updateMonthSelection
    by_cases h : cur ≠ "all" ∧ cur ∉ monthsOf rows
    · rw [if_pos h]; exact Or.inl rfl
    · rw [if_neg h]
      rcases not_and_or.mp h with h' | h'
      · exact Or.inl (not_not.mp h')
      · exact Or.inr (not_not.mp h')
  · unfold updateEventSelection
    by_cases h : cur ≠ "all" ∧ cur ∉ eventTypesOf rows
    · rw [if_pos h]; exact Or.inl rfl
    · rw [if_neg h]
      rcases not_and_or.mp h with h' | h'
      · exact Or.inl (not_not.mp h')
      · exact Or.inr (not_not.mp h')
  · unfold updateMonthSelection
    rw [if_pos ⟨h1, h2⟩]
  · unfold updateEventSelection
    rw [if_pos ⟨h1, h2⟩]

/-- The record list for the C10 witness. -/
def c10Rows : List Record :=
  [{ date := "2024-01-05", event_type := "Open mic" }]

/-- Witness for C10: the stale selection "2023-12" (a month, and likewise not
an event type, absent from the data) is reset to `"all"` by both rebuilds. -/
theorem c10_witness :
    updateMonthSelection "2023-12" c10Rows = "all" ∧
    updateEventSelection "2023-12" c10Rows = "all" :=
  ⟨(c10_filter_reset "2023-12" c10Rows).2.2.1 (by decide) (by decide),
   (c10_filter_reset "2023-12" c10Rows).2.2.2 (by decide) (by decide)⟩

/-- C7: for day-granularity bucketing, when the filter month is `"all"` or
names a month not present in the rows, the head of the descending-sorted
distinct months — the most recent month, maximal under the JS comparison —
is auto-selected; exactly the rows of that month are bucketed, and over rows
that all carry dates this selection is never empty. -/
theorem c7_daily_fallback (fm : String) (rows : List Record)
    (hfm : fm = "all" ∨ fm ∉ monthsOf rows)
    (hne : ∃ r ∈ rows, r.date ≠ "") :
    ∃ m rest, monthsOf rows = m :: rest ∧
      getDailyChartRows fm rows =
        (some m, rows.filter (fun r => r.date != "" && r.date.take 7 == m)) ∧
      (∀ m' ∈ monthsOf rows, jsStrLe m' m = true) ∧
      (getDailyChartRows fm rows).2 ≠ [] := by
  obtain ⟨r, hr, hd⟩ := hne
  have hmem0 : r.date.take 7 ∈ monthsOf rows := mem_monthsOf.mpr ⟨r, hr, hd, rfl⟩
  obtain ⟨m, rest, hcons⟩ : ∃ m rest, monthsOf rows = m :: rest := by
    cases h : monthsOf rows with
    | nil => rw [h] at hmem0; cases hmem0
    | cons a b => exact ⟨a, b, rfl⟩
  have hpair : getDailyChartRows fm rows =
      (some m, rows.filter (fun r => r.date != "" && r.date.take 7 == m)) := by
    unfold getDailyChartRows
    simp only [hcons]
    have hsel : (if fm = "all" ∨ fm ∉ m :: rest then m else fm) = m := by
      rw [if_pos]
      rcases hfm with h | h
      · exact Or.inl h
      · exact Or.inr (hcons ▸ h)
    rw [hsel]
  refine ⟨m, rest, hcons, hpair, ?_, ?_⟩
  · have hsort : List.Sorted descRel (monthsOf rows) := sortDesc_sorted _
    rw [hcons] at hsort
    intro m' hm'
    rw [hcons] at hm'
    rcases List.mem_cons.mp hm' with rfl | h'
    · rcases charListLe_total m'.data m'.data with h | h <;> exact h
    · exact List.rel_of_sorted_cons hsort _ h'
  · have hmem_m : m ∈ monthsOf rows := hcons ▸ List.mem_cons_self m rest
    obtain ⟨r', hr', hd', ht'⟩ := mem_monthsOf.mp hmem_m
    have hin : r' ∈ rows.filter (fun r => r.date != "" && r.date.take 7 == m) := by
      refine List.mem_filter.mpr ⟨hr', ?_⟩
      rw [ht']
      simp [hd']
    rw [hpair]
    exact List.ne_nil_of_mem hin

/-- The record list for the C7 witness: two months, no pinned filter month. -/
def c7Rows : List Record :=
  [{ date := "2024-01-05" }, { date := "2024-02-03" }, { date := "2024-01-20" }]

/-- Witness for C7 with the filter month `"all"`: the fallback month exists,
is maximal, and selects a non-empty row set. -/
theorem c7_witness :
    ∃ m rest, monthsOf c7Rows = m :: rest ∧
      getDailyChartRows "all" c7Rows =
        (some m, c7Rows.filter (fun r => r.date != "" && r.date.take 7 == m)) ∧
      (∀ m' ∈ monthsOf c7Rows, jsStrLe m' m = true) ∧
      (getDailyChartRows "all" c7Rows).2 ≠ [] :=
  c7_daily_fallback "all" c7Rows (Or.inl rfl)
    ⟨{ date := "2024-01-05" }, by decide⟩

lemma upsertAdd_snd_sum (t : List (String × ℚ)) (k : String) (v : ℚ) :
    ((upsertAdd t k v).map Prod.snd).sum = (t.map Prod.snd).sum + v := by
  induction t with
  | nil => simp [upsertAdd]
  | cons p t ih =>
    obtain ⟨k', v'⟩ := p
    by_cases h : k' = k
    · simp [upsertAdd, h]
      ring
    · simp [upsertAdd, h, ih]
      ring

lemma upsertAdd_keys (t : List (String × ℚ)) (k : String) (v : ℚ) :
    (upsertAdd t k v).map Prod.fst =
      if k ∈ t.map Prod.fst then t.map Prod.fst else t.map Prod.fst ++ [k] := by
  induction t with
  | nil => simp [upsertAdd]
  | cons p t ih =>
    obtain ⟨k', v'⟩ := p
    by_cases h : k' = k
    · subst h
      simp [upsertAdd]
    · by_cases h2 : k ∈ t.map Prod.fst
      · simp [upsertAdd, h, ih, h2, Ne.symm h]
      · simp [upsertAdd, h, ih, h2, Ne.symm h]

lemma upsertAdd_keys_nodup (t : List (String × ℚ)) (k : String) (v : ℚ)
    (h : (t.map Prod.fst).Nodup) : ((upsertAdd t k v).map Prod.fst).Nodup := by
  rw [upsertAdd_keys]
  by_cases hk : k ∈ t.map Prod.fst
  · rw [if_pos hk]; exact h
  · rw [if_neg hk]
    simp [List.nodup_append, h, hk]

lemma monthlyTable_foldl_sum (rows : List Record) (m : Metric) :
    ∀ t : List (String × ℚ),
      (((rows.foldl (fun t r => upsertAdd t (r.date.take 7) (metricOrZero m r)) t)).map
          Prod.snd).sum =
        (t.map Prod.snd).sum + (rows.map (metricOrZero m)).sum := by
  induction rows with
  | nil => intro t; simp
  | cons r rs ih =>
    intro t
    simp only [List.foldl_cons, List.map_cons, List.sum_cons]
    rw [ih, upsertAdd_snd_sum]
    ring

lemma monthlyTable_sum (rows : List Record) (m : Metric) :
    ((monthlyTable rows m).map Prod.snd).sum = (rows.map (metricOrZero m)).sum := by
  have h := monthlyTable_foldl_sum rows m []
  simpa [monthlyTable] using h

lemma monthlyTable_foldl_nodup (rows : List Record) (m : Metric) :
    ∀ t : List (String × ℚ), (t.map Prod.fst).Nodup →
      (((rows.foldl (fun t r => upsertAdd t (r.date.take 7) (metricOrZero m r)) t)).map
          Prod.fst).Nodup := by
  induction rows with
  | nil => intro t h; simpa using h
  | cons r rs ih =>
    intro t h
    simp only [List.foldl_cons]
    exact ih _ (upsertAdd_keys_nodup _ _ _ h)

lemma monthlyTable_nodup (rows : List Record) (m : Metric) :
    ((monthlyTable rows m).map Prod.fst).Nodup :=
  monthlyTable_foldl_nodup rows m [] (by simp)

lemma map_lookupQ_sum (t : List (String × ℚ)) (h : (t.map Prod.fst).Nodup) :
    ((t.map Prod.fst).map (lookupQ t)).sum = (t.map Prod.snd).sum := by
  induction t with
  | nil => simp
  | cons p t ih =>
    obtain ⟨k, v⟩ := p
    simp only [List.map_cons, List.sum_cons]
    obtain ⟨hknot, htail⟩ := List.nodup_cons.mp h
    have h1 : lookupQ ((k, v) :: t) k = v := by
      simp [lookupQ, List.lookup]
    have h2 : ((t.map Prod.fst).map (lookupQ ((k, v) :: t))).sum =
        ((t.map Prod.fst).map (lookupQ t)).sum := by
      apply congrArg
      apply List.map_congr_left
      intro k' hk'
      have hne : (k' == k) = false := by
        rw [beq_eq_false_iff_ne]
        intro he
        exact hknot (he ▸ hk')
      simp [lookupQ, List.lookup, hne]
    rw [h1, h2, ih htail]

/-- C9: monthly bucketing partitions records by the 7-character date prefix
and sums exactly — the sum of the per-bucket values before rounding equals
the sum of `row[metric] || 0` over the whole filtered set, and `Math.round`
is applied only to each bucket's final output value. -/
theorem c9_monthly_sum_preserved (rows : List Record) (m : Metric) :
    ((monthlySeries rows m).map Prod.snd).sum = (rows.map (metricOrZero m)).sum ∧
    monthlyData rows m = (monthlySeries rows m).map (fun p => jsRound p.2) := by
  constructor
  · have hperm : List.Perm (monthlyLabels rows m)
        ((monthlyTable rows m).map Prod.fst) :=
      List.perm_insertionSort ascRel _
    have h1 : (monthlySeries rows m).map Prod.snd =
        (monthlyLabels rows m).map (lookupQ (monthlyTable rows m)) := by
      simp [monthlySeries, List.map_map]
    have h2 : ((monthlyLabels rows m).map (lookupQ (monthlyTable rows m))).sum =
        (((monthlyTable rows m).map Prod.fst).map (lookupQ (monthlyTable rows m))).sum :=
      (hperm.map _).sum_eq
    rw [h1, h2, map_lookupQ_sum _ (monthlyTable_nodup rows m), monthlyTable_sum]
  · simp [monthlyData, monthlySeries, List.map_map]

end SalRepo
